import Mathlib

/-!
Shallow embedding of the visual screenshot-comparison engine of the
`amazon-q-web-scraper-mcp` repository (source file `src/unnamed/part_000`,
methods `analyzeVisualDifferences`, `analyzeLayout`, `compareCellContent`,
`getCellPosition`, `detectAlignmentDifferences`, `analyzeColors`,
`analyzeTypography`, `detectTextRegions`, `calculateContrast`).

Pixel buffers are `List ℕ` of byte values; exact rational arithmetic
models the JS floating-point computations (every number that occurs is a
small integer or an exact small fraction, and the comparisons against the
thresholds 0.3, 0.1, 30 and the divisions by 255, 3 and cell sizes are
exact in binary64 for the value ranges involved).  The one place the JS
code can produce a non-finite number — the unguarded similarity division
`1 - totalDiff / (totalPixels * 255)` when `totalPixels = 0`, which yields
`NaN` (or `±Infinity`) — is modelled as `Option.none`.

Out-of-range JS buffer reads yield `undefined`; arithmetic on `undefined`
yields `NaN`.  The embedding uses `List.getD _ _ 0` for reads and every
theorem below either works with indices that are proved in bounds
(the code's own guards `pixelIndex + 2 < buffer.length` are part of the
translated index lists) or carries buffer-length hypotheses matching the
JS call sites, so the default value is never observable.
-/

namespace WebScraper

/-- Absolute byte difference `Math.abs(bufferA[i] - bufferB[i])` used by
the similarity pass and the layout cell pass. -/
def absByteDiff (A B : List ℕ) (i : ℕ) : ℕ :=
  ((A.getD i 0 : ℤ) - (B.getD i 0 : ℤ)).natAbs

/-- The accumulation loop of `analyzeVisualDifferences`:
`for (let i = 0; i < bufferA.length; i++) totalDiff += Math.abs(bufferA[i] - bufferB[i])`. -/
def sumAbsDiff (A B : List ℕ) : ℕ :=
  ((List.range A.length).map (absByteDiff A B)).sum

/-- The similarity computation at the end of `analyzeVisualDifferences`:
`totalPixels = minWidth * minHeight * 3` and
`similarity = 1 - (totalDiff / (totalPixels * 255))`.
The division is not guarded in the source: when `totalPixels * 255 = 0`
the JS expression is `1 - 0/0 = NaN` (or `1 - x/0 = -Infinity` for
`x > 0`), a non-finite number modelled here as `none`. -/
def computeSimilarity (A B : List ℕ) (w h : ℕ) : Option ℚ :=
  let totalPixels := w * h * 3
  if totalPixels * 255 = 0 then none
  else some (1 - (sumAbsDiff A B : ℚ) / ((totalPixels : ℚ) * 255))

/-- The verdict `analysis.similar = analysis.similarity >= (1 - threshold)`.
A JS comparison against `NaN` is false, hence the `none` branch. -/
def similarVerdict (similarity : Option ℚ) (threshold : ℚ) : Bool :=
  match similarity with
  | none => false
  | some s => decide ((1 - threshold) ≤ s)

/-- Record pushed by `analyzeLayout` for a flagged grid cell. -/
structure LayoutDifference where
  region : String
  difference : ℚ
  coordinates : ℕ × ℕ
  deriving DecidableEq

/-- The pixel indices visited by `compareCellContent`'s double loop that
pass its bounds guard `pixelIndex + 2 < bufferA.length`:
`y` ranges over `[startY, startY + cellHeight)`, `x` over
`[startX, startX + cellWidth)`, and `pixelIndex = (y * imageWidth + x) * 3`. -/
def cellReadIndices (A : List ℕ) (startX startY cellWidth cellHeight imageWidth : ℕ) : List ℕ :=
  (((List.range cellHeight).flatMap fun dy =>
      (List.range cellWidth).map fun dx =>
        ((startY + dy) * imageWidth + (startX + dx)) * 3)).filter
    fun pixelIndex => pixelIndex + 2 < A.length

/-- `compareCellContent`: sums `|A - B|` over the R, G and B bytes of each
in-bounds pixel of the cell, counts 3 per pixel into `pixelCount`, and
returns `pixelCount > 0 ? totalDiff / (pixelCount * 255) : 0`. -/
def compareCellContent (A B : List ℕ) (startX startY cellWidth cellHeight imageWidth : ℕ) : ℚ :=
  let valid := cellReadIndices A startX startY cellWidth cellHeight imageWidth
  let totalDiff := (valid.map fun i =>
    absByteDiff A B i + absByteDiff A B (i + 1) + absByteDiff A B (i + 2)).sum
  let pixelCount := 3 * valid.length
  if 0 < pixelCount then (totalDiff : ℚ) / ((pixelCount : ℚ) * 255) else 0

/-- `getCellPosition`: three vertical and three horizontal bands.  The JS
comparisons are against the binary64 values `gridSize / 3` and
`2 * gridSize / 3`; for integer `row`, `col` and `gridSize` these
comparisons agree with the exact rational ones used here. -/
def getCellPosition (row col gridSize : ℕ) : String × String :=
  let verticalPos := if (row : ℚ) < (gridSize : ℚ) / 3 then "top"
    else if 2 * (gridSize : ℚ) / 3 < (row : ℚ) then "bottom" else "center"
  let horizontalPos := if (col : ℚ) < (gridSize : ℚ) / 3 then "left"
    else if 2 * (gridSize : ℚ) / 3 < (col : ℚ) then "right" else "center"
  (verticalPos, horizontalPos)

/-- The per-cell difference computed inside `analyzeLayout`'s loop, with
`gridSize = 20`, `cellWidth = Math.floor(width / gridSize)`,
`cellHeight = Math.floor(height / gridSize)`. -/
def cellDiffAt (A B : List ℕ) (width height row col : ℕ) : ℚ :=
  compareCellContent A B (col * (width / 20)) (row * (height / 20))
    (width / 20) (height / 20) width

/-- The `layoutDiffs` array built by `analyzeLayout`'s row-major double
loop: a cell is pushed exactly when `cellDiff > 0.3`. -/
def layoutDiffs (A B : List ℕ) (width height : ℕ) : List LayoutDifference :=
  (List.range 20).flatMap fun row =>
    (List.range 20).filterMap fun col =>
      if (3 : ℚ) / 10 < cellDiffAt A B width height row col then
        some { region := (getCellPosition row col 20).1 ++ "-" ++ (getCellPosition row col 20).2
               difference := cellDiffAt A B width height row col
               coordinates := (row, col) }
      else none

/-- JS `String.prototype.includes`: substring containment test. -/
def jsIncludes (r s : String) : Bool :=
  (List.range (r.data.length + 1)).any fun i => s.data.isPrefixOf (r.data.drop i)

/-- `detectAlignmentDifferences`: the two hardcoded alignment heuristics,
pushed in source order. -/
def detectAlignmentDifferences (lds : List LayoutDifference) : List String :=
  let regions := lds.map (·.region)
  (if (regions.any fun r => jsIncludes r "center-left") &&
      (regions.any fun r => jsIncludes r "center-center") then
    ["Content appears centered in source but left-aligned in target"] else []) ++
  (if (regions.any fun r => jsIncludes r "center-right") &&
      (regions.any fun r => jsIncludes r "center-center") then
    ["Content appears centered in source but right-aligned in target"] else [])

/-- Result object of `analyzeLayout`. -/
structure LayoutResult where
  gridAnalysis : String
  majorDifferences : List LayoutDifference
  alignment : List String

/-- `analyzeLayout`: grid analysis summary string, the first 5 flagged
cells (`slice(0, 5)`), and the alignment heuristics. -/
def analyzeLayout (A B : List ℕ) (width height : ℕ) : LayoutResult :=
  let diffs := layoutDiffs A B width height
  { gridAnalysis := toString diffs.length ++ " regions with significant layout differences"
    majorDifferences := diffs.take 5
    alignment := detectAlignmentDifferences diffs }

/-- Record pushed by `analyzeColors` for a significant sampled pixel.
The source formats the two colours as `rgb(r, g, b)` strings; the raw
byte triples carried here determine those strings. -/
structure ColorDifference where
  source : ℕ × ℕ × ℕ
  target : ℕ × ℕ × ℕ
  difference : ℕ
  deriving DecidableEq

/-- Exact model of `Math.round(Math.sqrt(n))` for a natural `n`:
`round(√n) = m` iff `(2m − 1)² ≤ 4n < (2m + 1)²` (ties are impossible
since `√n` is never a half-integer), which is `(⌊√(4n)⌋ + 1) / 2`. -/
def roundSqrt (n : ℕ) : ℕ := (Nat.sqrt (4 * n) + 1) / 2

/-- The number of distinct values `Math.floor(Math.random() * (len / 3))`
can take for `r ∈ [0, 1)`: the floors range over `0 .. ⌈len/3⌉ - 1`
(the JS division `len / 3` is a float, not truncated). -/
def sampleOrdRange (len : ℕ) : ℕ := (len + 2) / 3

/-- Squared Euclidean RGB distance of the sampled pixel starting at byte
`pixelIndex`.  The JS code compares `Math.sqrt(d2) > 30`, which for
natural `d2` is exactly `d2 > 900`. -/
def colorDist2 (A B : List ℕ) (pixelIndex : ℕ) : ℕ :=
  absByteDiff A B pixelIndex ^ 2 + absByteDiff A B (pixelIndex + 1) ^ 2
    + absByteDiff A B (pixelIndex + 2) ^ 2

/-- The `colorDiffs` array of `analyzeColors`, parameterised by the list
of sampled pixel ordinals `k = Math.floor(Math.random() * (len / 3))`
(one per loop iteration, `pixelIndex = k * 3`). -/
def colorDiffs (A B : List ℕ) (draws : List ℕ) : List ColorDifference :=
  draws.filterMap fun k =>
    let pixelIndex := 3 * k
    if 900 < colorDist2 A B pixelIndex then
      some { source := (A.getD pixelIndex 0, A.getD (pixelIndex + 1) 0, A.getD (pixelIndex + 2) 0)
             target := (B.getD pixelIndex 0, B.getD (pixelIndex + 1) 0, B.getD (pixelIndex + 2) 0)
             difference := roundSqrt (colorDist2 A B pixelIndex) }
    else none

/-- Result object of `analyzeColors`. -/
structure ColorResult where
  significantDifferences : ℕ
  examples : List ColorDifference
  summary : String

/-- `analyzeColors`: count, the first 10 examples (`slice(0, 10)`), and
the bucketed severity summary. -/
def analyzeColors (A B : List ℕ) (draws : List ℕ) : ColorResult :=
  let cds := colorDiffs A B draws
  { significantDifferences := cds.length
    examples := cds.take 10
    summary := if 50 < cds.length then "Major color palette differences detected"
      else if 10 < cds.length then "Moderate color differences detected"
      else "Minor or no color differences detected" }

/-- Record pushed by `detectTextRegions` for a candidate text block. -/
structure TextRegion where
  x : ℕ
  y : ℕ
  contrastA : ℚ
  contrastB : ℚ
  hasSignificantDifference : Bool
  deriving DecidableEq

/-- The pixel indices visited by `calculateContrast`'s double loop that
pass its guard `pixelIndex + 2 < buffer.length`. -/
def contrastReadIndices (buf : List ℕ) (startX startY blockSize imageWidth : ℕ) : List ℕ :=
  (((List.range blockSize).flatMap fun dy =>
      (List.range blockSize).map fun dx =>
        ((startY + dy) * imageWidth + (startX + dx)) * 3)).filter
    fun pixelIndex => pixelIndex + 2 < buf.length

/-- `calculateContrast`: per-pixel brightness `(r + g + b) / 3`, running
minimum starting at 255 and maximum starting at 0, result
`(max - min) / 255`. -/
def calculateContrast (buf : List ℕ) (startX startY blockSize imageWidth : ℕ) : ℚ :=
  let brightnesses := (contrastReadIndices buf startX startY blockSize imageWidth).map fun i =>
    ((buf.getD i 0 + buf.getD (i + 1) 0 + buf.getD (i + 2) 0 : ℕ) : ℚ) / 3
  let minBrightness := brightnesses.foldl min 255
  let maxBrightness := brightnesses.foldl max 0
  (maxBrightness - minBrightness) / 255

/-- The loop-variable values of the `detectTextRegions` loop header
`for (let v = 0; v < limit - blockSize; v += blockSize)`: the multiples
`blockSize * k` with `blockSize * k < limit - blockSize`.  Natural-number
truncated subtraction agrees with the JS signed subtraction here because
the loop variable is never negative: if `limit ≤ blockSize` neither side
admits any iteration. -/
def scanStarts (blockSize limit : ℕ) : List ℕ :=
  ((List.range limit).filter fun k => blockSize * k < limit - blockSize).map
    fun k => blockSize * k

/-- The `(x, y)` block origins scanned by `detectTextRegions`
(`y` outer loop, `x` inner loop, `blockSize = 50`). -/
def scannedBlocks (width height : ℕ) : List (ℕ × ℕ) :=
  (scanStarts 50 height).flatMap fun y => (scanStarts 50 width).map fun x => (x, y)

/-- `detectTextRegions`: a block is a candidate when
`contrastA > 0.3 || contrastB > 0.3` and flagged when
`|contrastA - contrastB| > 0.1`. -/
def detectTextRegions (A B : List ℕ) (width height : ℕ) : List TextRegion :=
  (scannedBlocks width height).filterMap fun p =>
    let contrastA := calculateContrast A p.1 p.2 50 width
    let contrastB := calculateContrast B p.1 p.2 50 width
    if (3 : ℚ) / 10 < contrastA ∨ (3 : ℚ) / 10 < contrastB then
      some { x := p.1, y := p.2, contrastA := contrastA, contrastB := contrastB
             hasSignificantDifference := decide ((1 : ℚ) / 10 < |contrastA - contrastB|) }
    else none

/-- All-black 40×40 RGB buffer. -/
def black40 : List ℕ := List.replicate (40 * 40 * 3) 0

/-- All-white 40×40 RGB buffer. -/
def white40 : List ℕ := List.replicate (40 * 40 * 3) 255

/-- The nine region labels `getCellPosition` can produce. -/
def regionLabels : List String :=
  ["top-left", "top-center", "top-right", "center-left", "center-center",
   "center-right", "bottom-left", "bottom-center", "bottom-right"]

/-- A concrete flagged-cell list: a center-left cell (8, 2) and a
center-center cell (8, 8). -/
def lds7 : List LayoutDifference :=
  [{ region := "center-left", difference := 1, coordinates := (8, 2) },
   { region := "center-center", difference := 1, coordinates := (8, 8) }]

/-- Result object of `analyzeTypography`. -/
structure TypographyResult where
  textRegionsAnalyzed : ℕ
  differences : List TextRegion
  summary : String

/-- `analyzeTypography`: all candidate regions, those with a significant
contrast difference, and the summary line. -/
def analyzeTypography (A B : List ℕ) (width height : ℕ) : TypographyResult :=
  let textRegions := detectTextRegions A B width height
  { textRegionsAnalyzed := textRegions.length
    differences := textRegions.filter (·.hasSignificantDifference)
    summary := if 0 < textRegions.length then
        "Analyzed " ++ toString textRegions.length ++ " text regions, " ++
          toString (textRegions.filter (·.hasSignificantDifference)).length ++
          " show typography differences"
      else "No clear text regions detected for typography analysis" }


lemma getD_replicate {α : Type} (a d : α) {n i : ℕ} (h : i < n) :
    (List.replicate n a).getD i d = a := by
  induction n generalizing i with
  | zero => omega
  | succ n ih =>
    cases i with
    | zero => rfl
    | succ i => exact ih (by omega)

lemma sum_range_map_const {n c : ℕ} {f : ℕ → ℕ} (h : ∀ i < n, f i = c) :
    ((List.range n).map f).sum = n * c := by
  induction n with
  | zero => simp
  | succ n ih =>
    rw [List.range_succ, List.map_append, List.sum_append]
    simp [h n (by omega), ih (fun i hi => h i (by omega)), Nat.succ_mul]

lemma sum_range_map_le {n c : ℕ} {f : ℕ → ℕ} (h : ∀ i < n, f i ≤ c) :
    ((List.range n).map f).sum ≤ n * c := by
  induction n with
  | zero => simp
  | succ n ih =>
    rw [List.range_succ, List.map_append, List.sum_append, Nat.succ_mul]
    have h1 := ih (fun i hi => h i (by omega))
    have h2 := h n (by omega)
    simp only [List.map_cons, List.map_nil, List.sum_cons, List.sum_nil]
    omega

lemma absByteDiff_self (A : List ℕ) (i : ℕ) : absByteDiff A A i = 0 := by
  simp [absByteDiff]

lemma sumAbsDiff_self (A : List ℕ) : sumAbsDiff A A = 0 := by
  unfold sumAbsDiff
  rw [sum_range_map_const (fun i _ => absByteDiff_self A i)]
  simp

-- C1
/-- C1: for equal-length RGB buffers of size `width*height*3` the scorer
returns `1 − (Σ|A[i] − B[i]|) / (width*height*3*255)`, and comparing a
non-empty buffer to itself returns exactly 1. -/
theorem computeSimilarity_formula (A B : List ℕ) (w h : ℕ)
    (hA : A.length = w * h * 3) (hB : B.length = w * h * 3) (hpos : 0 < w * h * 3) :
    computeSimilarity A B w h
      = some (1 - (∑ i in Finset.range (w * h * 3), (absByteDiff A B i : ℚ))
          / ((w * h * 3 : ℚ) * 255))
    ∧ computeSimilarity A A w h = some 1 := by
  have hne : w * h * 3 ≠ 0 := Nat.pos_iff_ne_zero.mp hpos
  have hd : ¬ (w * h * 3 * 255 = 0) := by intro hc; omega
  have hnat : sumAbsDiff A B = ∑ i in Finset.range (w * h * 3), absByteDiff A B i := by
    unfold sumAbsDiff
    rw [hA]
    rfl
  constructor
  · unfold computeSimilarity
    rw [if_neg hd, hnat]
    congr 1
    push_cast
    ring
  · unfold computeSimilarity
    rw [if_neg hd, sumAbsDiff_self]
    norm_num

/-- Witness for C1 at `A = [0,0,255]`, `B = [255,0,0]`, `w = h = 1`. -/
theorem computeSimilarity_formula_witness :
    ([0, 0, 255] : List ℕ).length = 1 * 1 * 3 ∧ ([255, 0, 0] : List ℕ).length = 1 * 1 * 3
    ∧ 0 < 1 * 1 * 3
    ∧ (computeSimilarity [0, 0, 255] [255, 0, 0] 1 1
        = some (1 - (∑ i in Finset.range (1 * 1 * 3),
            (absByteDiff [0, 0, 255] [255, 0, 0] i : ℚ)) / ((1 * 1 * 3 : ℚ) * 255))
      ∧ computeSimilarity [0, 0, 255] [0, 0, 255] 1 1 = some 1) :=
  ⟨rfl, rfl, by norm_num, computeSimilarity_formula _ _ 1 1 rfl rfl (by norm_num)⟩

-- C2
/-- C2 counterexample: on two length-0 buffers the division is not
guarded; the JS code computes `1 - 0/0 = NaN` (modelled `none`), not the
claimed similarity 1, and not a finite value in range. -/
theorem computeSimilarity_empty_is_nan : computeSimilarity ([] : List ℕ) [] 0 0 = none := rfl

/-- C2 amended: for equal-length byte buffers of positive size
`width*height*3` the scorer returns a (finite) value in `[0, 1]`. -/
theorem computeSimilarity_mem_unit_interval (A B : List ℕ) (w h : ℕ)
    (hA : A.length = w * h * 3) (hB : B.length = w * h * 3)
    (hbA : ∀ x ∈ A, x ≤ 255) (hbB : ∀ x ∈ B, x ≤ 255) (hpos : 0 < w * h * 3) :
    ∃ s : ℚ, computeSimilarity A B w h = some s ∧ 0 ≤ s ∧ s ≤ 1 := by
  have hne : w * h * 3 ≠ 0 := Nat.pos_iff_ne_zero.mp hpos
  have hd : ¬ (w * h * 3 * 255 = 0) := by intro hc; omega
  have hbound : sumAbsDiff A B ≤ (w * h * 3) * 255 := by
    unfold sumAbsDiff
    rw [hA]
    apply sum_range_map_le
    intro i hi
    have hiA : i < A.length := by omega
    have hiB : i < B.length := by omega
    have haa : A.getD i 0 ≤ 255 := by
      rw [List.getD_eq_getElem _ _ hiA]
      exact hbA _ (List.getElem_mem hiA)
    have hbb : B.getD i 0 ≤ 255 := by
      rw [List.getD_eq_getElem _ _ hiB]
      exact hbB _ (List.getElem_mem hiB)
    unfold absByteDiff
    omega
  have hD : (0 : ℚ) < ((w * h * 3 : ℕ) : ℚ) * 255 := by
    have : (0 : ℚ) < ((w * h * 3 : ℕ) : ℚ) := by exact_mod_cast hpos
    linarith
  refine ⟨_, by unfold computeSimilarity; rw [if_neg hd], ?_, ?_⟩
  · have hle : (sumAbsDiff A B : ℚ) ≤ ((w * h * 3 : ℕ) : ℚ) * 255 := by
      exact_mod_cast hbound
    have := (div_le_one hD).mpr hle
    linarith
  · have h0 : (0 : ℚ) ≤ (sumAbsDiff A B : ℚ) / (((w * h * 3 : ℕ) : ℚ) * 255) :=
      div_nonneg (by positivity) (le_of_lt hD)
    linarith

/-- Witness for C2's amended theorem at `A = B = [7, 7, 7]`, `w = h = 1`. -/
theorem computeSimilarity_mem_unit_interval_witness :
    ([7, 7, 7] : List ℕ).length = 1 * 1 * 3 ∧ (∀ x ∈ ([7, 7, 7] : List ℕ), x ≤ 255)
    ∧ 0 < 1 * 1 * 3
    ∧ ∃ s : ℚ, computeSimilarity [7, 7, 7] [7, 7, 7] 1 1 = some s ∧ 0 ≤ s ∧ s ≤ 1 :=
  ⟨rfl, by decide, by norm_num,
    computeSimilarity_mem_unit_interval _ _ 1 1 rfl rfl (by decide) (by decide) (by norm_num)⟩


lemma mem_scanStarts {blockSize limit v : ℕ} (hbs : 0 < blockSize) :
    v ∈ scanStarts blockSize limit ↔ blockSize ∣ v ∧ v + blockSize < limit := by
  unfold scanStarts
  simp only [List.mem_map, List.mem_filter, List.mem_range, decide_eq_true_eq]
  constructor
  · rintro ⟨k, ⟨hk, hlt⟩, rfl⟩
    exact ⟨⟨k, rfl⟩, by omega⟩
  · rintro ⟨⟨k, rfl⟩, hlt⟩
    have hk : k ≤ blockSize * k := Nat.le_mul_of_pos_left k hbs
    exact ⟨k, ⟨by omega, by omega⟩, rfl⟩

-- C3
/-- C3 counterexample: in a 50×50 image the block at (0, 0) satisfies
`x + 50 ≤ width` and `y + 50 ≤ height`, yet the typography analyzer does
not scan it (its loops use the strict bound `y < height - blockSize`). -/
theorem scannedBlocks_not_closed_edge :
    ¬ (((0, 0) ∈ scannedBlocks 50 50) ↔ (0 + 50 ≤ 50 ∧ 0 + 50 ≤ 50)) := by decide

/-- C3 amended: a 50-aligned block at `(x, y)` is scanned iff
`x + 50 < width` and `y + 50 < height` (strict, so blocks ending exactly
at the image edge are also skipped). -/
theorem scannedBlocks_mem_iff (width height x y : ℕ) (hx : 50 ∣ x) (hy : 50 ∣ y) :
    (x, y) ∈ scannedBlocks width height ↔ x + 50 < width ∧ y + 50 < height := by
  unfold scannedBlocks
  simp only [List.mem_flatMap, List.mem_map]
  constructor
  · rintro ⟨b, hb, a, ha, heq⟩
    injection heq with h1 h2
    subst h1; subst h2
    exact ⟨((mem_scanStarts (by norm_num)).mp ha).2, ((mem_scanStarts (by norm_num)).mp hb).2⟩
  · rintro ⟨hxw, hyh⟩
    exact ⟨y, (mem_scanStarts (by norm_num)).mpr ⟨hy, hyh⟩, x,
      (mem_scanStarts (by norm_num)).mpr ⟨hx, hxw⟩, rfl⟩

/-- Witness for C3's amended theorem: in a 51×51 image the block at
(0, 0) is scanned. -/
theorem scannedBlocks_mem_iff_witness :
    (50 ∣ 0) ∧ (((0, 0) ∈ scannedBlocks 51 51) ↔ (0 + 50 < 51 ∧ 0 + 50 < 51)) :=
  ⟨⟨0, rfl⟩, scannedBlocks_mem_iff 51 51 0 0 ⟨0, rfl⟩ ⟨0, rfl⟩⟩

-- C8
/-- C8: the `similar` verdict is monotone when the threshold is raised
from 0.1 to 0.5: it can go from false to true, never the reverse. -/
theorem similarVerdict_monotone (sim : Option ℚ)
    (h : similarVerdict sim (1 / 10) = true) : similarVerdict sim (1 / 2) = true := by
  match sim with
  | none => exact absurd h (by simp [similarVerdict])
  | some s =>
    simp only [similarVerdict, decide_eq_true_eq] at h ⊢
    linarith

/-- Witness for C8 at `similarity = 1`. -/
theorem similarVerdict_monotone_witness :
    similarVerdict (some 1) (1 / 10) = true ∧ similarVerdict (some 1) (1 / 2) = true :=
  ⟨by norm_num [similarVerdict], similarVerdict_monotone (some 1) (by norm_num [similarVerdict])⟩

-- C9
/-- C9: with buffers of length `width*height*3`, every buffer read of the
analyzers is in bounds: the guarded index lists of `compareCellContent`
and `calculateContrast` only contain indices with `i + 2 < length`, and
every possible color-sample index `3k` satisfies `3k + 2 < length`. -/
theorem analyzer_reads_in_bounds (A B : List ℕ) (w h : ℕ)
    (hA : A.length = w * h * 3) (hB : B.length = w * h * 3) :
    (∀ startX startY cw ch : ℕ, ∀ i ∈ cellReadIndices A startX startY cw ch w,
        i + 2 < A.length ∧ i + 2 < B.length)
    ∧ (∀ (buf : List ℕ) (startX startY bs : ℕ),
        ∀ i ∈ contrastReadIndices buf startX startY bs w, i + 2 < buf.length)
    ∧ (∀ k, k < sampleOrdRange A.length → 3 * k + 2 < A.length ∧ 3 * k + 2 < B.length) := by
  refine ⟨?_, ?_, ?_⟩
  · intro sx sy cw ch i hi
    unfold cellReadIndices at hi
    rw [List.mem_filter] at hi
    have := of_decide_eq_true hi.2
    omega
  · intro buf sx sy bs i hi
    unfold contrastReadIndices at hi
    rw [List.mem_filter] at hi
    exact of_decide_eq_true hi.2
  · intro k hk
    unfold sampleOrdRange at hk
    omega

/-- Witness for C9 at `A = B = [1, 2, 3]`, `w = h = 1`. -/
theorem analyzer_reads_in_bounds_witness :
    ([1, 2, 3] : List ℕ).length = 1 * 1 * 3
    ∧ ((∀ startX startY cw ch : ℕ,
          ∀ i ∈ cellReadIndices [1, 2, 3] startX startY cw ch 1,
            i + 2 < ([1, 2, 3] : List ℕ).length ∧ i + 2 < ([1, 2, 3] : List ℕ).length)
      ∧ (∀ (buf : List ℕ) (startX startY bs : ℕ),
          ∀ i ∈ contrastReadIndices buf startX startY bs 1, i + 2 < buf.length)
      ∧ (∀ k, k < sampleOrdRange ([1, 2, 3] : List ℕ).length →
          3 * k + 2 < ([1, 2, 3] : List ℕ).length ∧ 3 * k + 2 < ([1, 2, 3] : List ℕ).length)) :=
  ⟨rfl, analyzer_reads_in_bounds [1, 2, 3] [1, 2, 3] 1 1 rfl rfl⟩

-- shared layout helpers
lemma cellReadIndices_nil {A : List ℕ} {sx sy cw ch iw : ℕ} (hz : cw = 0 ∨ ch = 0) :
    cellReadIndices A sx sy cw ch iw = [] := by
  unfold cellReadIndices
  rcases hz with rfl | rfl <;> simp

lemma compareCellContent_zero_cell {A B : List ℕ} {sx sy cw ch iw : ℕ} (hz : cw = 0 ∨ ch = 0) :
    compareCellContent A B sx sy cw ch iw = 0 := by
  unfold compareCellContent
  rw [cellReadIndices_nil hz]
  simp

lemma compareCellContent_self (A : List ℕ) (sx sy cw ch iw : ℕ) :
    compareCellContent A A sx sy cw ch iw = 0 := by
  have hsum : ((cellReadIndices A sx sy cw ch iw).map fun i =>
      absByteDiff A A i + absByteDiff A A (i + 1) + absByteDiff A A (i + 2)).sum = 0 := by
    apply List.sum_eq_zero
    intro x hx
    rw [List.mem_map] at hx
    obtain ⟨i, _, rfl⟩ := hx
    simp [absByteDiff_self]
  simp only [compareCellContent, hsum]
  split <;> simp

lemma layoutDiffs_eq_nil_of_cellDiff_zero {A B : List ℕ} {w h : ℕ}
    (hcell : ∀ row col, cellDiffAt A B w h row col = 0) : layoutDiffs A B w h = [] := by
  unfold layoutDiffs
  have hrow : ∀ row ∈ List.range 20, ((List.range 20).filterMap fun col =>
      if (3 : ℚ) / 10 < cellDiffAt A B w h row col then
        some { region := (getCellPosition row col 20).1 ++ "-" ++ (getCellPosition row col 20).2
               difference := cellDiffAt A B w h row col
               coordinates := (row, col) : LayoutDifference }
      else none) = [] := by
    intro row _
    apply List.filterMap_eq_nil_iff.mpr
    intro col _
    rw [if_neg (by rw [hcell row col]; norm_num)]
  exact List.flatMap_eq_nil_iff.mpr hrow

-- C10
/-- C10: when `width < 20` or `height < 20` every grid cell is empty, so
`analyzeLayout` reports no differences regardless of buffer contents. -/
theorem analyzeLayout_small_image (A B : List ℕ) (w h : ℕ)
    (hsmall : w / 20 = 0 ∨ h / 20 = 0) :
    (∀ row col, cellDiffAt A B w h row col = 0)
    ∧ layoutDiffs A B w h = []
    ∧ (analyzeLayout A B w h).gridAnalysis = "0 regions with significant layout differences"
    ∧ (analyzeLayout A B w h).majorDifferences = []
    ∧ (analyzeLayout A B w h).alignment = [] := by
  have hcell : ∀ row col, cellDiffAt A B w h row col = 0 := by
    intro row col
    unfold cellDiffAt
    apply compareCellContent_zero_cell
    rcases hsmall with hh | hh
    · exact Or.inl hh
    · exact Or.inr hh
  have hld := layoutDiffs_eq_nil_of_cellDiff_zero hcell
  refine ⟨hcell, hld, ?_, ?_, ?_⟩ <;> simp only [analyzeLayout, hld] <;> rfl

/-- Witness for C10 at two empty 5×5 buffers. -/
theorem analyzeLayout_small_image_witness :
    ((5 : ℕ) / 20 = 0 ∨ (5 : ℕ) / 20 = 0)
    ∧ ((∀ row col, cellDiffAt [] [] 5 5 row col = 0)
      ∧ layoutDiffs [] [] 5 5 = []
      ∧ (analyzeLayout [] [] 5 5).gridAnalysis = "0 regions with significant layout differences"
      ∧ (analyzeLayout [] [] 5 5).majorDifferences = []
      ∧ (analyzeLayout [] [] 5 5).alignment = []) :=
  ⟨Or.inl rfl, analyzeLayout_small_image [] [] 5 5 (Or.inl rfl)⟩

-- C6
/-- C6: on two byte-for-byte identical buffers every analyzer reports no
differences: no flagged layout cells, no alignment hypotheses, zero
significant color samples for every possible draw, and no text region
flagged with a significant typography difference. -/
theorem identical_buffers_no_differences (A : List ℕ) (w h : ℕ) (draws : List ℕ) :
    layoutDiffs A A w h = []
    ∧ (analyzeLayout A A w h).alignment = []
    ∧ (analyzeColors A A draws).significantDifferences = 0
    ∧ (analyzeTypography A A w h).differences = [] := by
  have hld : layoutDiffs A A w h = [] :=
    layoutDiffs_eq_nil_of_cellDiff_zero fun r c => compareCellContent_self A _ _ _ _ _
  refine ⟨hld, ?_, ?_, ?_⟩
  · simp only [analyzeLayout, hld]
    rfl
  · have hcd : colorDiffs A A draws = [] := by
      apply List.filterMap_eq_nil_iff.mpr
      intro k _
      rw [if_neg (by simp [colorDist2, absByteDiff_self])]
    simp only [analyzeColors, hcd]
    rfl
  · simp only [analyzeTypography]
    apply List.filter_eq_nil_iff.mpr
    intro r hr
    unfold detectTextRegions at hr
    rw [List.mem_filterMap] at hr
    obtain ⟨p, _, hp⟩ := hr
    dsimp only at hp
    split at hp
    · injection hp with hp
      subst hp
      simp only [decide_eq_true_eq, sub_self, abs_zero]
      norm_num
    · exact absurd hp (by simp)




lemma roundSqrt_eq (n : ℕ) : roundSqrt n = (Nat.sqrt (4 * n) + 1) / 2 := by
  simp only [roundSqrt]

lemma roundSqrt_195075 : roundSqrt 195075 = 442 := by
  rw [roundSqrt_eq]
  norm_num

lemma absByteDiff_black_white {i : ℕ} (hi : i < 40 * 40 * 3) :
    absByteDiff black40 white40 i = 255 := by
  unfold absByteDiff black40 white40
  rw [getD_replicate _ _ hi, getD_replicate _ _ hi]
  decide

lemma colorDist2_black_white {k : ℕ} (hk : k < 1600) :
    colorDist2 black40 white40 (3 * k) = 195075 := by
  unfold colorDist2
  rw [absByteDiff_black_white (by omega), absByteDiff_black_white (by omega),
    absByteDiff_black_white (by omega)]
  norm_num

lemma length_filterMap_of_isSome {α β : Type} (f : α → Option β) (l : List α)
    (h : ∀ a ∈ l, (f a).isSome) : (l.filterMap f).length = l.length := by
  induction l with
  | nil => rfl
  | cons a t ih =>
    rw [List.filterMap_cons]
    cases hfa : f a with
    | none => exact absurd (h a (List.mem_cons_self a t)) (by simp [hfa])
    | some b =>
      simp only [List.length_cons]
      rw [ih fun x hx => h x (List.mem_cons_of_mem a hx)]

-- C4
/-- C4 counterexample: sampling pixel 0 of all-black vs all-white buffers
gives a `ColorDifference.difference` of `Math.round(√195075) = 442`,
not 441 as claimed. -/
theorem colorDiffs_black_white_not_441 :
    ¬ (∀ cd ∈ colorDiffs black40 white40 [0], cd.difference = 441) := by
  intro hall
  have e0 : black40.getD (3 * 0) 0 = 0 := getD_replicate _ _ (by norm_num)
  have e1 : black40.getD (3 * 0 + 1) 0 = 0 := getD_replicate _ _ (by norm_num)
  have e2 : black40.getD (3 * 0 + 2) 0 = 0 := getD_replicate _ _ (by norm_num)
  have f0 : white40.getD (3 * 0) 0 = 255 := getD_replicate _ _ (by norm_num)
  have f1 : white40.getD (3 * 0 + 1) 0 = 255 := getD_replicate _ _ (by norm_num)
  have f2 : white40.getD (3 * 0 + 2) 0 = 255 := getD_replicate _ _ (by norm_num)
  have hmem : ({ source := (0, 0, 0), target := (255, 255, 255), difference := 442 }
      : ColorDifference) ∈ colorDiffs black40 white40 [0] := by
    unfold colorDiffs
    rw [List.mem_filterMap]
    refine ⟨0, by simp, ?_⟩
    dsimp only
    rw [colorDist2_black_white (by norm_num), if_pos (by norm_num),
      e0, e1, e2, f0, f1, f2, roundSqrt_195075]
  exact absurd (hall _ hmem) (by decide)

/-- C4 amended: for all-black vs all-white 40×40 buffers the similarity
is exactly 0, every sampled `ColorDifference` has
`difference = Math.round(√(255²·3)) = Math.round(441.67…) = 442`, and the
summary is "Major color palette differences detected". -/
theorem analyzeColors_black_white (draws : List ℕ) (hlen : draws.length = 1000)
    (hvalid : ∀ k ∈ draws, k < sampleOrdRange (40 * 40 * 3)) :
    computeSimilarity black40 white40 40 40 = some 0
    ∧ (∀ cd ∈ colorDiffs black40 white40 draws, cd.difference = 442)
    ∧ (analyzeColors black40 white40 draws).summary
        = "Major color palette differences detected" := by
  have hval' : ∀ k ∈ draws, k < 1600 := by
    intro k hk
    have h := hvalid k hk
    unfold sampleOrdRange at h
    omega
  refine ⟨?_, ?_, ?_⟩
  · simp only [computeSimilarity]
    rw [if_neg (by norm_num)]
    have hs : sumAbsDiff black40 white40 = 4800 * 255 := by
      unfold sumAbsDiff
      have hlb : black40.length = 4800 := by
        unfold black40
        rw [List.length_replicate]
      rw [hlb]
      exact sum_range_map_const fun i hi => absByteDiff_black_white (by omega)
    rw [hs]
    norm_num
  · intro cd hcd
    unfold colorDiffs at hcd
    rw [List.mem_filterMap] at hcd
    obtain ⟨k, hkmem, hk⟩ := hcd
    have hk1600 := hval' k hkmem
    dsimp only at hk
    rw [colorDist2_black_white hk1600, if_pos (by norm_num)] at hk
    injection hk with hk
    subst hk
    exact roundSqrt_195075
  · have hlen' : (colorDiffs black40 white40 draws).length = 1000 := by
      have hlen2 : (colorDiffs black40 white40 draws).length = draws.length := by
        unfold colorDiffs
        apply length_filterMap_of_isSome
        intro k hk
        dsimp only
        rw [colorDist2_black_white (hval' k hk), if_pos (by norm_num)]
        rfl
      rw [hlen2, hlen]
    simp only [analyzeColors]
    rw [if_pos (by rw [hlen']; norm_num)]

/-- Witness for C4's amended theorem with 1000 draws of pixel ordinal 0. -/
theorem analyzeColors_black_white_witness :
    (List.replicate 1000 (0 : ℕ)).length = 1000
    ∧ (∀ k ∈ List.replicate 1000 (0 : ℕ), k < sampleOrdRange (40 * 40 * 3))
    ∧ (computeSimilarity black40 white40 40 40 = some 0
      ∧ (∀ cd ∈ colorDiffs black40 white40 (List.replicate 1000 (0 : ℕ)), cd.difference = 442)
      ∧ (analyzeColors black40 white40 (List.replicate 1000 (0 : ℕ))).summary
          = "Major color palette differences detected") :=
  ⟨by rw [List.length_replicate],
   by
    intro k hk
    rw [List.eq_of_mem_replicate hk]
    unfold sampleOrdRange
    omega,
   analyzeColors_black_white _ (by rw [List.length_replicate])
     (by
      intro k hk
      rw [List.eq_of_mem_replicate hk]
      unfold sampleOrdRange
      omega)⟩


lemma filter_flatMap' {α β : Type} (L : List α) (f : α → List β) (p : β → Bool) :
    (L.flatMap f).filter p = L.flatMap fun x => (f x).filter p := by
  induction L with
  | nil => rfl
  | cons a t ih => rw [List.flatMap_cons, List.flatMap_cons, List.filter_append, ih]

lemma coords_inner (A B : List ℕ) (w h row : ℕ) (l : List ℕ) :
    ((l.filterMap fun col =>
        if (3 : ℚ) / 10 < cellDiffAt A B w h row col then
          some { region := (getCellPosition row col 20).1 ++ "-" ++ (getCellPosition row col 20).2
                 difference := cellDiffAt A B w h row col
                 coordinates := (row, col) : LayoutDifference }
        else none).map (·.coordinates))
      = (l.map fun c => (row, c)).filter
          fun p => decide ((3 : ℚ) / 10 < cellDiffAt A B w h p.1 p.2) := by
  induction l with
  | nil => rfl
  | cons a t ih =>
    rw [List.filterMap_cons, List.map_cons, List.filter_cons]
    by_cases hc : (3 : ℚ) / 10 < cellDiffAt A B w h row a
    · rw [if_pos hc, List.map_cons, ih]
      have hd : decide ((3 : ℚ) / 10 < cellDiffAt A B w h (row, a).1 (row, a).2) = true :=
        decide_eq_true hc
      rw [hd, if_pos rfl]
    · rw [if_neg hc, ih]
      have hd : decide ((3 : ℚ) / 10 < cellDiffAt A B w h (row, a).1 (row, a).2) = false :=
        decide_eq_false hc
      rw [hd]
      simp

-- C5
/-- C5: a grid cell yields a `LayoutDifference` iff it is inside the
20×20 grid and its normalized cell difference exceeds 0.3; the region
label is the vertical band (top/bottom/center) joined to the horizontal
band (left/right/center); `majorDifferences` is the first 5 flagged
cells, and the flagged cells are in row-major scan order. -/
theorem analyzeLayout_flag_iff (A B : List ℕ) (w h : ℕ) :
    (∀ r c : ℕ, (∃ ld ∈ layoutDiffs A B w h, ld.coordinates = (r, c)) ↔
        (r < 20 ∧ c < 20 ∧ (3 : ℚ) / 10 < cellDiffAt A B w h r c))
    ∧ (∀ ld ∈ layoutDiffs A B w h,
        ld.region
          = (if (ld.coordinates.1 : ℚ) < 20 / 3 then "top"
              else if 2 * 20 / 3 < (ld.coordinates.1 : ℚ) then "bottom" else "center")
            ++ "-"
            ++ (if (ld.coordinates.2 : ℚ) < 20 / 3 then "left"
              else if 2 * 20 / 3 < (ld.coordinates.2 : ℚ) then "right" else "center"))
    ∧ (analyzeLayout A B w h).majorDifferences = (layoutDiffs A B w h).take 5
    ∧ (layoutDiffs A B w h).map (·.coordinates)
        = ((List.range 20).flatMap fun r => (List.range 20).map fun c => (r, c)).filter
            fun p => decide ((3 : ℚ) / 10 < cellDiffAt A B w h p.1 p.2) := by
  refine ⟨?_, ?_, rfl, ?_⟩
  · intro r c
    constructor
    · rintro ⟨ld, hld, hco⟩
      unfold layoutDiffs at hld
      rw [List.mem_flatMap] at hld
      obtain ⟨row, hrow, hcol⟩ := hld
      rw [List.mem_filterMap] at hcol
      obtain ⟨col, hcolmem, hif⟩ := hcol
      rw [List.mem_range] at hrow
      rw [List.mem_range] at hcolmem
      split at hif
      · injection hif with hif
        subst hif
        simp only at hco
        injection hco with h1 h2
        subst h1
        subst h2
        exact ⟨hrow, hcolmem, by assumption⟩
      · exact absurd hif (by simp)
    · rintro ⟨hr, hc, hcond⟩
      refine ⟨{ region := (getCellPosition r c 20).1 ++ "-" ++ (getCellPosition r c 20).2
                difference := cellDiffAt A B w h r c
                coordinates := (r, c) }, ?_, rfl⟩
      unfold layoutDiffs
      rw [List.mem_flatMap]
      refine ⟨r, List.mem_range.mpr hr, ?_⟩
      rw [List.mem_filterMap]
      exact ⟨c, List.mem_range.mpr hc, by rw [if_pos hcond]⟩
  · intro ld hld
    unfold layoutDiffs at hld
    rw [List.mem_flatMap] at hld
    obtain ⟨row, hrow, hcol⟩ := hld
    rw [List.mem_filterMap] at hcol
    obtain ⟨col, hcolmem, hif⟩ := hcol
    split at hif
    · injection hif with hif
      subst hif
      show (getCellPosition row col 20).1 ++ "-" ++ (getCellPosition row col 20).2 = _
      unfold getCellPosition
      norm_num
    · exact absurd hif (by simp)
  · unfold layoutDiffs
    rw [List.map_flatMap, filter_flatMap']
    exact List.flatMap_congr fun row _ => coords_inner A B w h row (List.range 20)


lemma cellDiffAt_tiny : cellDiffAt [0, 0, 0] [255, 255, 255] 20 20 0 0 = 1 := by
  have harg : cellDiffAt [0, 0, 0] [255, 255, 255] 20 20 0 0
      = compareCellContent [0, 0, 0] [255, 255, 255] 0 0 1 1 20 := by
    unfold cellDiffAt
    norm_num
  have hidx : cellReadIndices [0, 0, 0] 0 0 1 1 20 = [0] := by decide
  have hmap : (([0] : List ℕ).map fun i =>
      absByteDiff [0, 0, 0] [255, 255, 255] i + absByteDiff [0, 0, 0] [255, 255, 255] (i + 1)
        + absByteDiff [0, 0, 0] [255, 255, 255] (i + 2)) = [765] := by decide
  rw [harg]
  simp only [compareCellContent, hidx, hmap]
  norm_num

/-- Witness for C5: on a 3-byte black buffer vs white buffer at 20×20 the
cell (0, 0) is flagged. -/
theorem analyzeLayout_flag_iff_witness :
    ((3 : ℚ) / 10 < cellDiffAt [0, 0, 0] [255, 255, 255] 20 20 0 0)
    ∧ (∃ ld ∈ layoutDiffs [0, 0, 0] [255, 255, 255] 20 20, ld.coordinates = (0, 0)) := by
  have hq : (3 : ℚ) / 10 < cellDiffAt [0, 0, 0] [255, 255, 255] 20 20 0 0 := by
    rw [cellDiffAt_tiny]
    norm_num
  exact ⟨hq, ((analyzeLayout_flag_iff [0, 0, 0] [255, 255, 255] 20 20).1 0 0).mpr
    ⟨by norm_num, by norm_num, hq⟩⟩

-- C7 infrastructure

lemma getCellPosition_mem_labels (row col : ℕ) :
    (getCellPosition row col 20).1 ++ "-" ++ (getCellPosition row col 20).2 ∈ regionLabels := by
  unfold getCellPosition
  dsimp only
  split_ifs <;> decide

lemma jsIncludes_label_iff :
    ∀ r ∈ regionLabels,
      (jsIncludes r "center-left" = true ↔ r = "center-left")
      ∧ (jsIncludes r "center-center" = true ↔ r = "center-center")
      ∧ (jsIncludes r "center-right" = true ↔ r = "center-right") := by decide

lemma any_includes_iff (lds : List LayoutDifference)
    (hlab : ∀ r ∈ lds.map (·.region), r ∈ regionLabels) (s : String)
    (hs : s = "center-left" ∨ s = "center-center" ∨ s = "center-right") :
    (((lds.map (·.region)).any fun r => jsIncludes r s) = true ↔ s ∈ lds.map (·.region)) := by
  rw [List.any_eq_true]
  constructor
  · rintro ⟨r, hr, hinc⟩
    have h3 := jsIncludes_label_iff r (hlab r hr)
    rcases hs with rfl | rfl | rfl
    · rw [← h3.1.mp hinc]; exact hr
    · rw [← h3.2.1.mp hinc]; exact hr
    · rw [← h3.2.2.mp hinc]; exact hr
  · intro hsmem
    refine ⟨s, hsmem, ?_⟩
    rcases hs with rfl | rfl | rfl <;> decide


-- C7
/-- C7: the alignment output contains the left-aligned message iff the
flagged regions include both center-left and center-center, the
right-aligned message iff they include both center-right and
center-center, and nothing else (0 to 2 of exactly these two strings). -/
theorem detectAlignment_exact (lds : List LayoutDifference)
    (hdom : ∀ ld ∈ lds, ∃ row col : ℕ,
        ld.region = (getCellPosition row col 20).1 ++ "-" ++ (getCellPosition row col 20).2) :
    (("Content appears centered in source but left-aligned in target"
        ∈ detectAlignmentDifferences lds)
      ↔ ("center-left" ∈ lds.map (·.region) ∧ "center-center" ∈ lds.map (·.region)))
    ∧ (("Content appears centered in source but right-aligned in target"
        ∈ detectAlignmentDifferences lds)
      ↔ ("center-right" ∈ lds.map (·.region) ∧ "center-center" ∈ lds.map (·.region)))
    ∧ (∀ s ∈ detectAlignmentDifferences lds,
        s = "Content appears centered in source but left-aligned in target"
        ∨ s = "Content appears centered in source but right-aligned in target")
    ∧ (detectAlignmentDifferences lds).length ≤ 2 := by
  have hlab : ∀ r ∈ lds.map (·.region), r ∈ regionLabels := by
    intro r hr
    rw [List.mem_map] at hr
    obtain ⟨ld, hld, rfl⟩ := hr
    obtain ⟨row, col, hrc⟩ := hdom ld hld
    rw [hrc]
    exact getCellPosition_mem_labels row col
  have k1 := any_includes_iff lds hlab "center-left" (Or.inl rfl)
  have k2 := any_includes_iff lds hlab "center-center" (Or.inr (Or.inl rfl))
  have k3 := any_includes_iff lds hlab "center-right" (Or.inr (Or.inr rfl))
  have hb1iff : (((lds.map (·.region)).any fun r => jsIncludes r "center-left")
        && ((lds.map (·.region)).any fun r => jsIncludes r "center-center")) = true
      ↔ ("center-left" ∈ lds.map (·.region) ∧ "center-center" ∈ lds.map (·.region)) := by
    rw [Bool.and_eq_true, k1, k2]
  have hb2iff : (((lds.map (·.region)).any fun r => jsIncludes r "center-right")
        && ((lds.map (·.region)).any fun r => jsIncludes r "center-center")) = true
      ↔ ("center-right" ∈ lds.map (·.region) ∧ "center-center" ∈ lds.map (·.region)) := by
    rw [Bool.and_eq_true, k3, k2]
  have hdetect : detectAlignmentDifferences lds
      = (if ("center-left" ∈ lds.map (·.region) ∧ "center-center" ∈ lds.map (·.region)) then
          ["Content appears centered in source but left-aligned in target"] else [])
        ++ (if ("center-right" ∈ lds.map (·.region) ∧ "center-center" ∈ lds.map (·.region)) then
          ["Content appears centered in source but right-aligned in target"] else []) := by
    simp only [detectAlignmentDifferences]
    congr 1
    · by_cases hP : ("center-left" ∈ lds.map (·.region) ∧ "center-center" ∈ lds.map (·.region))
      · rw [if_pos (hb1iff.mpr hP), if_pos hP]
      · rw [if_neg (fun hc => hP (hb1iff.mp hc)), if_neg hP]
    · by_cases hP : ("center-right" ∈ lds.map (·.region) ∧ "center-center" ∈ lds.map (·.region))
      · rw [if_pos (hb2iff.mpr hP), if_pos hP]
      · rw [if_neg (fun hc => hP (hb2iff.mp hc)), if_neg hP]
  refine ⟨?_, ?_, ?_, ?_⟩
  · rw [hdetect]
    constructor
    · intro hm
      rw [List.mem_append] at hm
      rcases hm with hm | hm
      · by_cases hP1 : ("center-left" ∈ lds.map (·.region) ∧ "center-center" ∈ lds.map (·.region))
        · exact hP1
        · rw [if_neg hP1] at hm
          cases hm
      · split at hm
        · exact absurd (List.mem_singleton.mp hm) (by decide)
        · cases hm
    · intro hP1
      rw [List.mem_append]
      exact Or.inl (by rw [if_pos hP1]; exact List.mem_singleton.mpr rfl)
  · rw [hdetect]
    constructor
    · intro hm
      rw [List.mem_append] at hm
      rcases hm with hm | hm
      · split at hm
        · exact absurd (List.mem_singleton.mp hm) (by decide)
        · cases hm
      · by_cases hP2 : ("center-right" ∈ lds.map (·.region) ∧ "center-center" ∈ lds.map (·.region))
        · exact hP2
        · rw [if_neg hP2] at hm
          cases hm
    · intro hP2
      rw [List.mem_append]
      exact Or.inr (by rw [if_pos hP2]; exact List.mem_singleton.mpr rfl)
  · intro s hs
    rw [hdetect, List.mem_append] at hs
    rcases hs with hs | hs
    · split at hs
      · exact Or.inl (List.mem_singleton.mp hs)
      · cases hs
    · split at hs
      · exact Or.inr (List.mem_singleton.mp hs)
      · cases hs
  · rw [hdetect, List.length_append]
    split <;> split <;> simp



lemma getCellPosition_8_2 : getCellPosition 8 2 20 = ("center", "left") := by
  unfold getCellPosition
  rw [if_neg (by norm_num), if_neg (by norm_num), if_pos (by norm_num)]

lemma getCellPosition_8_8 : getCellPosition 8 8 20 = ("center", "center") := by
  unfold getCellPosition
  rw [if_neg (by norm_num), if_neg (by norm_num), if_neg (by norm_num), if_neg (by norm_num)]

lemma lds7_dom : ∀ ld ∈ lds7, ∃ row col : ℕ,
    ld.region = (getCellPosition row col 20).1 ++ "-" ++ (getCellPosition row col 20).2 := by
  intro ld hld
  rw [lds7, List.mem_cons, List.mem_singleton] at hld
  rcases hld with rfl | rfl
  · exact ⟨8, 2, by rw [getCellPosition_8_2]; rfl⟩
  · exact ⟨8, 8, by rw [getCellPosition_8_8]; rfl⟩

/-- Witness for C7 on the concrete flagged-cell list `lds7`. -/
theorem detectAlignment_exact_witness :
    (∀ ld ∈ lds7, ∃ row col : ℕ,
        ld.region = (getCellPosition row col 20).1 ++ "-" ++ (getCellPosition row col 20).2)
    ∧ ((("Content appears centered in source but left-aligned in target"
          ∈ detectAlignmentDifferences lds7)
        ↔ ("center-left" ∈ lds7.map (·.region) ∧ "center-center" ∈ lds7.map (·.region)))
      ∧ (("Content appears centered in source but right-aligned in target"
          ∈ detectAlignmentDifferences lds7)
        ↔ ("center-right" ∈ lds7.map (·.region) ∧ "center-center" ∈ lds7.map (·.region)))
      ∧ (∀ s ∈ detectAlignmentDifferences lds7,
          s = "Content appears centered in source but left-aligned in target"
          ∨ s = "Content appears centered in source but right-aligned in target")
      ∧ (detectAlignmentDifferences lds7).length ≤ 2) :=
  ⟨lds7_dom, detectAlignment_exact lds7 lds7_dom⟩

end WebScraper
